import Mathlib

/-!  Shallow embedding of the FrameVis video visualizer (frame-by-frame.py):
interval math, matte detection, bound aggregation, frame sampling and the
control flow of the visualize pass.  Python floats are modelled as exact
rationals, numpy channel sums as naturals, and raised exceptions as Except
errors.  Each definition carries a reference to the source function it
embeds. -/

namespace FrameVis

/-- Python exceptions raised by the script. -/
inductive PyErr where
  | fileNotFoundError
  | valueError
  | ioError
  | typeError
  | zeroDivisionError
deriving DecidableEq, Repr

instance {ε α : Type} [DecidableEq ε] [DecidableEq α] : DecidableEq (Except ε α) :=
  fun a b =>
    match a, b with
    | .ok x, .ok y =>
      if h : x = y then .isTrue (by rw [h])
      else .isFalse (fun hc => h (by cases hc; rfl))
    | .error x, .error y =>
      if h : x = y then .isTrue (by rw [h])
      else .isFalse (fun hc => h (by cases hc; rfl))
    | .ok _, .error _ => .isFalse (fun hc => Except.noConfusion hc)
    | .error _, .ok _ => .isFalse (fun hc => Except.noConfusion hc)

/-- Python int() applied to a float value: truncation toward zero. -/
def pyInt (q : ℚ) : ℤ := if 0 ≤ q then ⌊q⌋ else ⌈q⌉

/-- Python round() on a float value: round half to even. -/
def pyRound (q : ℚ) : ℤ :=
  if q - ⌊q⌋ < 1/2 then ⌊q⌋
  else if 1/2 < q - ⌊q⌋ then ⌊q⌋ + 1
  else if ⌊q⌋ % 2 = 0 then ⌊q⌋ else ⌊q⌋ + 1

/-- A decoded frame: rows of columns of 8-bit channel values. -/
abbrev Img := List (List (List ℕ))

/-- image.shape[0], the pixel height of a frame. -/
def iheight (im : Img) : ℕ := im.length

/-- image.shape[1], the pixel width of a frame. -/
def iwidth (im : Img) : ℕ := (im.headD []).length

/-- image.shape[2], the channel depth of a frame. -/
def idepth (im : Img) : ℕ := ((im.headD []).headD []).length

/-- np.sum(image, axis=(1, 2)): for each row, the sum of every channel of
every column ("horizontal_sums" in determine_image_bounds). -/
def rowSums (im : Img) : List ℕ :=
  im.map (fun row => (row.map List.sum).sum)

/-- np.sum(image, axis=(0, 2)): for each column index, the sum of every
channel of that column over all rows ("vertical_sums" in
determine_image_bounds).  The getD default is never reached on a
rectangular frame. -/
def colSums (im : Img) : List ℕ :=
  (List.range (iwidth im)).map (fun j => (im.map (fun row => (row.getD j []).sum)).sum)

/-- Loop body of MatteTrimmer.find_matrix_edges: for value_id, value in
enumerate(matrix): if value > threshold, set data_start on the first hit
and move data_end to the current index. -/
def fme_go (threshold : ℕ) : List ℕ → ℕ → Option ℕ × Option ℕ → Option ℕ × Option ℕ
  | [], _, acc => acc
  | v :: rest, i, (ds, de) =>
    if threshold < v then
      fme_go threshold rest (i + 1) ((if ds.isNone then some i else ds), some i)
    else
      fme_go threshold rest (i + 1) (ds, de)

/-- MatteTrimmer.find_matrix_edges: start and end indices of the 1D data
strictly above the threshold; (None, None) when no entry qualifies. -/
def find_matrix_edges (matrix : List ℕ) (threshold : ℕ) : Option ℕ × Option ℕ :=
  fme_go threshold matrix 0 (none, none)

/-- First index of the list whose value strictly exceeds t (the reading of
the content-bound rule in the specification). -/
def firstAbove (t : ℕ) : List ℕ → Option ℕ
  | [] => none
  | v :: rest => if t < v then some 0 else (firstAbove t rest).map (· + 1)

/-- Last index of the list whose value strictly exceeds t (the reading of
the content-bound rule in the specification). -/
def lastAbove (t : ℕ) : List ℕ → Option ℕ
  | [] => none
  | v :: rest =>
    match lastAbove t rest with
    | some k => some (k + 1)
    | none => if t < v then some 0 else none

/-- Rectangle with possibly-undefined coordinates, as the detector
produces: ((x1, y1), (x2, y2)). -/
abbrev ORect := (Option ℤ × Option ℤ) × (Option ℤ × Option ℤ)

/-- Rectangle with concrete integer corners: ((x1, y1), (x2, y2)). -/
abbrev ZRect := (ℤ × ℤ) × (ℤ × ℤ)

/-- A rectangle with every coordinate defined, as a bounds matrix. -/
def toORect (r : ZRect) : ORect :=
  ((some r.1.1, some r.1.2), (some r.2.1, some r.2.2))

/-- Read back a bounds matrix all of whose coordinates are defined (the
aggregation loop only stores rectangles that passed valid_bounds). -/
def toZRect (r : ORect) : ZRect :=
  ((r.1.1.getD 0, r.1.2.getD 0), (r.2.1.getD 0, r.2.2.getD 0))

/-- MatteTrimmer.valid_bounds on a bounds matrix: False when any coordinate
is None, or when left > right, or top > bottom. -/
def valid_bounds (b : ORect) : Bool :=
  if b.1.1.isNone || b.1.2.isNone || b.2.1.isNone || b.2.2.isNone then false
  else if b.1.1.getD 0 > b.2.1.getD 0 || b.1.2.getD 0 > b.2.2.getD 0 then false
  else true

/-- MatteTrimmer.valid_bounds as called on a possibly-absent bounds object:
in Python, iterating enumerate(None) raises TypeError. -/
def valid_bounds_py (b : Option ORect) : Except PyErr Bool :=
  match b with
  | none => .error .typeError
  | some r => .ok (valid_bounds r)

/-- MatteTrimmer.find_larger_bound: the rectangular boundary coordinates
containing both inputs. -/
def find_larger_bound (first second : ZRect) : ZRect :=
  let left_edge := if first.1.1 ≤ second.1.1 then first.1.1 else second.1.1
  let right_edge := if first.2.1 ≥ second.2.1 then first.2.1 else second.2.1
  let top_edge := if first.1.2 ≤ second.1.2 then first.1.2 else second.1.2
  let bottom_edge := if first.2.2 ≥ second.2.2 then first.2.2 else second.2.2
  ((left_edge, top_edge), (right_edge, bottom_edge))

/-- MatteTrimmer.crop_image:
image[bounds[0][1]:bounds[1][1], bounds[0][0]:bounds[1][0]].  Python slices
are upper-exclusive; modelled for the nonnegative in-range bounds the
detector produces. -/
def crop_image (im : Img) (bounds : ZRect) : Img :=
  ((im.drop bounds.1.2.toNat).take (bounds.2.2 - bounds.1.2).toNat).map
    (fun row => (row.drop bounds.1.1.toNat).take (bounds.2.1 - bounds.1.1).toNat)

/-- MatteTrimmer.determine_image_bounds: threshold the per-row and
per-column channel sums and package the first/last qualifying indices as a
bounds matrix, together with its validity. -/
def determine_image_bounds (image : Img) (threshold : ℕ) : Bool × ORect :=
  let horizontal_sums := rowSums image
  let hthreshold := threshold * iwidth image * idepth image
  let vertical_edges := find_matrix_edges horizontal_sums hthreshold
  let vertical_sums := colSums image
  let vthreshold := threshold * iheight image * idepth image
  let horizontal_edges := find_matrix_edges vertical_sums vthreshold
  let image_bounds : ORect :=
    ((horizontal_edges.1.map Int.ofNat, vertical_edges.1.map Int.ofNat),
     (horizontal_edges.2.map Int.ofNat, vertical_edges.2.map Int.ofNat))
  (valid_bounds image_bounds, image_bounds)

/-- An opened cv2.VideoCapture on one source: metadata plus random-access
decoding.  readAt i models video.set(CAP_PROP_POS_FRAMES, i) followed by
video.read(); firstFrame models the initial video.read(). -/
structure Video where
  opened : Bool
  total : ℚ
  fps : ℚ
  firstFrame : Option Img
  readAt : ℤ → Option Img

/-- Result of one visualize run: the seeked frame indices of the main
pass, the cell size handed to cv2.resize for every sampled frame, and the
reported duration.  (The pixel content of the composite lives entirely in
the external resize/concatenate collaborators.) -/
structure VisResult where
  seeks : List ℤ
  cellW : ℤ
  cellH : ℤ
  duration : ℚ
deriving DecidableEq, Repr

/-- The frame-processing while loop of FrameVis.visualize: one seek and
one decode per output frame, advancing the unrounded keyframe accumulator
and truncating only at the seek; a failed decode raises IOError.  The
crop/resize/concatenate calls touch pixel data only, so the loop records
the seeked indices. -/
def visLoop (readAt : ℤ → Option Img) : ℕ → ℚ → ℚ → Except PyErr (List ℤ)
  | 0, _, _ => .ok []
  | n + 1, next_keyframe, keyframe_interval =>
    match readAt (pyInt next_keyframe) with
    | none => .error .ioError
    | some _ =>
      match visLoop readAt n (next_keyframe + keyframe_interval) keyframe_interval with
      | .error e => .error e
      | .ok rest => .ok (pyInt next_keyframe :: rest)

/-- The sampling loop of MatteTrimmer.determine_video_bounds.  When a
frame's detected bounds are invalid, the continue statement skips the
trailing next_keyframe += keyframe_interval, so the accumulator does not
advance for that iteration. -/
def dvb_loop (readAt : ℤ → Option Img) (threshold : ℕ) :
    ℕ → ℚ → ℚ → Option ZRect → List ℤ → Except PyErr (List ℤ × Option ZRect)
  | 0, _, _, video_bounds, seeks => .ok (seeks.reverse, video_bounds)
  | n + 1, next_keyframe, keyframe_interval, video_bounds, seeks =>
    let idx := pyInt next_keyframe
    match readAt idx with
    | none => .error .ioError
    | some image =>
      let fb := determine_image_bounds image threshold
      if fb.1 then
        let fbz := toZRect fb.2
        let vb := match video_bounds with
          | none => some fbz
          | some old => some (find_larger_bound old fbz)
        dvb_loop readAt threshold n (next_keyframe + keyframe_interval)
          keyframe_interval vb (idx :: seeks)
      else
        dvb_loop readAt threshold n next_keyframe keyframe_interval
          video_bounds (idx :: seeks)

/-- MatteTrimmer.determine_video_bounds.  The first component is the
Python return value (with the seeked indices recorded next to the success
flag and the aggregated bounds); the second counts video.release()
calls.  video.release() runs before the return expression evaluates
valid_bounds. -/
def determine_video_bounds (v : Video) (nsamples : ℤ) (threshold : ℕ) :
    Except PyErr (List ℤ × Bool × Option ZRect) × ℕ :=
  if v.opened = false then (.error .fileNotFoundError, 0)
  else if nsamples < 1 then (.error .valueError, 0)
  else
    let keyframe_interval := v.total / (nsamples : ℚ)
    match v.firstFrame with
    | none => (.error .ioError, 0)
    | some _ =>
      match dvb_loop v.readAt threshold nsamples.toNat (keyframe_interval / 2)
          keyframe_interval none [] with
      | .error e => (.error e, 0)
      | .ok (seeks, video_bounds) =>
        match valid_bounds_py (video_bounds.map toORect) with
        | .error e => (.error e, 1)
        | .ok succ => (.ok (seeks, succ, video_bounds), 1)

/-- The trim block of FrameVis.visualize: run the detection pre-pass and,
when it succeeds, derive matte_type from the crop extent against the first
frame; errors from the pre-pass propagate.  Yields
(matte_type, crop_width, crop_height). -/
def visualize_trim (v : Video) (trim : Bool) (image : Img) :
    Except PyErr (ℕ × ℤ × ℤ) :=
  if trim then
    match (determine_video_bounds v 10 3).1 with
    | .error e => .error e
    | .ok (_, succ, vb) =>
      if succ then
        let cb := vb.getD ((0, 0), (0, 0))
        let crop_width := cb.2.1 - cb.1.1 + 1
        let crop_height := cb.2.2 - cb.1.2 + 1
        .ok ((if crop_height ≠ (iheight image : ℤ) then 1 else 0) +
             (if crop_width ≠ (iwidth image : ℤ) then 2 else 0),
             crop_width, crop_height)
      else .ok (0, 0, 0)
  else .ok (0, 0, 0)

/-- The width-calculation block of FrameVis.visualize: auto width is the
crop width under pillarboxing for the vertical direction, the frame width
otherwise, and the 1-pixel default concat size for other directions; an
explicit width must be a positive integer. -/
def visualize_width (widthArg : Option ℤ) (direction : String) (matte_type : ℕ)
    (crop_width : ℤ) (image : Img) : Except PyErr ℤ :=
  match widthArg with
  | none =>
    if direction = "vertical" then
      .ok (if matte_type &&& 2 = 2 then crop_width else (iwidth image : ℤ))
    else .ok 1  -- FrameVis.default_concat_size
  | some w => if w < 1 then .error .valueError else .ok w

/-- FrameVis.visualize on the quiet path.  heightArg is the height
parameter of the Python signature; the first statement of the body
overwrites it with int(output_height / nframes), so it is never read.
Returns the run outcome and the number of video.release() calls on the
main-pass handle. -/
def visualize (v : Video) (nframes : ℤ) (heightArg widthArg : Option ℤ)
    (direction : String) (trim : Bool) : Except PyErr VisResult × ℕ :=
  -- height = int(self.output_height / nframes): Python raises on nframes == 0
  if nframes = 0 then (.error .zeroDivisionError, 0)
  else
    let height := pyInt ((3840 : ℚ) / (nframes : ℚ))
    if v.opened = false then (.error .fileNotFoundError, 0)
    else if v.fps = 0 then (.error .zeroDivisionError, 0)
    else
      let video_duration := v.total / v.fps
      if nframes < 1 then (.error .valueError, 0)
      else if v.total < (nframes : ℚ) then (.error .valueError, 0)
      else
        let keyframe_interval := v.total / (nframes : ℚ)
        match v.firstFrame with
        | none => (.error .ioError, 0)
        | some image =>
          match visualize_trim v trim image with
          | .error e => (.error e, 0)
          | .ok (matte_type, crop_width, _crop_height) =>
            -- height is an int here (overwritten above), so of the height
            -- branch only the positive-integer check is reachable
            if height < 1 then (.error .valueError, 0)
            else
              match visualize_width widthArg direction matte_type crop_width image with
              | .error e => (.error e, 0)
              | .ok width =>
                if direction = "horizontal" ∨ direction = "vertical" then
                  match visLoop v.readAt nframes.toNat (keyframe_interval / 2)
                      keyframe_interval with
                  | .error e => (.error e, 0)
                  | .ok seeks => (.ok ⟨seeks, width, height, video_duration⟩, 1)
                else (.error .valueError, 0)

/-- FrameVis.interval_from_nframes.  The division by nframes happens
before video.release(); the division by fps happens after it. -/
def interval_from_nframes (v : Video) (nframes : ℤ) : Except PyErr ℚ × ℕ :=
  if v.opened = false then (.error .fileNotFoundError, 0)
  else if nframes = 0 then (.error .zeroDivisionError, 0)
  else
    let keyframe_interval := v.total / (nframes : ℚ)
    if v.fps = 0 then (.error .zeroDivisionError, 1)
    else (.ok (keyframe_interval / v.fps), 1)

/-- FrameVis.nframes_from_interval.  duration = frame_count / fps is
computed before video.release(); the division by the interval after it. -/
def nframes_from_interval (v : Video) (interval : ℚ) : Except PyErr ℤ × ℕ :=
  if v.opened = false then (.error .fileNotFoundError, 0)
  else if v.fps = 0 then (.error .zeroDivisionError, 0)
  else
    let duration := v.total / v.fps
    if interval = 0 then (.error .zeroDivisionError, 1)
    else (.ok (pyRound (duration / interval)), 1)

/-- The closed form of the sampling schedule of visualize: index i is the
truncation of interval/2 + i*interval with interval = total/n. -/
def sampleIndices (total : ℚ) (n : ℕ) : List ℤ :=
  (List.range n).map (fun i : ℕ => pyInt (total / (n : ℚ) / 2 + (i : ℚ) * (total / (n : ℚ))))

/-- Containment of rectangle inner within rectangle outer, both given as
((x1, y1), (x2, y2)) corner pairs with inclusive bounds. -/
def containsRect (outer inner : ZRect) : Prop :=
  outer.1.1 ≤ inner.1.1 ∧ outer.1.2 ≤ inner.1.2 ∧
    inner.2.1 ≤ outer.2.1 ∧ inner.2.2 ≤ outer.2.2

/-- 2-by-2 single-channel frame with every channel value 255. -/
def brightImg : Img := [[[255], [255]], [[255], [255]]]

/-- 2-by-2 single-channel frame with every channel value 0. -/
def blackImg : Img := [[[0], [0]], [[0], [0]]]

/-- 4-by-4 single-channel frame whose pixel at (row, column) carries the
value 4*row + column. -/
def demo4 : Img :=
  [[[0], [1], [2], [3]], [[4], [5], [6], [7]],
   [[8], [9], [10], [11]], [[12], [13], [14], [15]]]

/-- A source with 100 metadata frames at 10 fps whose every decode
succeeds with a bright frame. -/
def demoVid : Video :=
  { opened := true, total := 100, fps := 10,
    firstFrame := some brightImg, readAt := fun _ => some brightImg }

/-- A source with 6 metadata frames at 10 fps: the frame at index 1 has
content, every other frame is solid black. -/
def mixedVid : Video :=
  { opened := true, total := 6, fps := 10,
    firstFrame := some brightImg,
    readAt := fun i => if i = 1 then some brightImg else some blackImg }

/-- A source with 4 metadata frames at 10 fps whose every frame is solid
black. -/
def blackVid : Video :=
  { opened := true, total := 4, fps := 10,
    firstFrame := some blackImg, readAt := fun _ => some blackImg }

/-- A source with 4000 metadata frames at 10 fps whose every decode
succeeds with a bright frame. -/
def bigVid : Video :=
  { opened := true, total := 4000, fps := 10,
    firstFrame := some brightImg, readAt := fun _ => some brightImg }

/-! ## Bound aggregation -/

lemma flb_minmax (a b : ZRect) :
    find_larger_bound a b =
      ((min a.1.1 b.1.1, min a.1.2 b.1.2), (max a.2.1 b.2.1, max a.2.2 b.2.2)) := by
  have h1 : (if a.1.1 ≤ b.1.1 then a.1.1 else b.1.1) = min a.1.1 b.1.1 :=
    (min_def a.1.1 b.1.1).symm
  have h3 : (if a.1.2 ≤ b.1.2 then a.1.2 else b.1.2) = min a.1.2 b.1.2 :=
    (min_def a.1.2 b.1.2).symm
  have h2 : (if a.2.1 ≥ b.2.1 then a.2.1 else b.2.1) = max a.2.1 b.2.1 := by
    rw [max_def]; rcases le_total a.2.1 b.2.1 with h | h <;> split_ifs <;> omega
  have h4 : (if a.2.2 ≥ b.2.2 then a.2.2 else b.2.2) = max a.2.2 b.2.2 := by
    rw [max_def]; rcases le_total a.2.2 b.2.2 with h | h <;> split_ifs <;> omega
  simp only [find_larger_bound, h1, h2, h3, h4]

/-- Claim C5: find_larger_bound is the component-wise min of the top-left
corners paired with the component-wise max of the bottom-right corners;
it contains both inputs, is commutative and associative, and is
idempotent. -/
theorem claim_C5 (a b c : ZRect) :
    find_larger_bound a b =
      ((min a.1.1 b.1.1, min a.1.2 b.1.2), (max a.2.1 b.2.1, max a.2.2 b.2.2)) ∧
    containsRect (find_larger_bound a b) a ∧
    containsRect (find_larger_bound a b) b ∧
    find_larger_bound a b = find_larger_bound b a ∧
    find_larger_bound (find_larger_bound a b) c =
      find_larger_bound a (find_larger_bound b c) ∧
    find_larger_bound a a = a := by
  refine ⟨flb_minmax a b, ?_, ?_, ?_, ?_, ?_⟩
  · rw [flb_minmax]
    exact ⟨min_le_left _ _, min_le_left _ _, le_max_left _ _, le_max_left _ _⟩
  · rw [flb_minmax]
    exact ⟨min_le_right _ _, min_le_right _ _, le_max_right _ _, le_max_right _ _⟩
  · rw [flb_minmax, flb_minmax]
    simp [min_comm, max_comm]
  · rw [flb_minmax, flb_minmax, flb_minmax, flb_minmax]
    simp [min_assoc, max_assoc]
  · rw [flb_minmax]
    simp

lemma valid_toORect (r : ZRect) :
    valid_bounds (toORect r) = true ↔ r.1.1 ≤ r.2.1 ∧ r.1.2 ≤ r.2.2 := by
  obtain ⟨⟨x1, y1⟩, ⟨x2, y2⟩⟩ := r
  simp [valid_bounds, toORect]

/-- Claim C10: validity of rectangles is preserved by find_larger_bound,
and hence by the left fold the aggregation loop performs over any sequence
of valid per-frame rectangles. -/
theorem claim_C10 :
    (∀ a b : ZRect, valid_bounds (toORect a) = true → valid_bounds (toORect b) = true →
      valid_bounds (toORect (find_larger_bound a b)) = true) ∧
    (∀ (r : ZRect) (rs : List ZRect), valid_bounds (toORect r) = true →
      (∀ x ∈ rs, valid_bounds (toORect x) = true) →
      valid_bounds (toORect (rs.foldl find_larger_bound r)) = true) := by
  have hstep : ∀ a b : ZRect, valid_bounds (toORect a) = true →
      valid_bounds (toORect b) = true →
      valid_bounds (toORect (find_larger_bound a b)) = true := by
    intro a b ha hb
    rw [valid_toORect] at ha hb
    rw [flb_minmax, valid_toORect]
    constructor
    · exact le_trans (min_le_left _ _) (le_trans ha.1 (le_max_left _ _))
    · exact le_trans (min_le_left _ _) (le_trans ha.2 (le_max_left _ _))
  refine ⟨hstep, ?_⟩
  intro r rs
  induction rs generalizing r with
  | nil => intro h _; simpa using h
  | cons x xs ih =>
    intro hr hall
    have hx : valid_bounds (toORect x) = true := hall x (by simp)
    have hrest : ∀ y ∈ xs, valid_bounds (toORect y) = true :=
      fun y hy => hall y (by simp [hy])
    simpa using ih (find_larger_bound r x) (hstep r x hr hx) hrest

/-- Witness for C10: a concrete pair of valid rectangles whose union is
valid. -/
theorem claim_C10_witness :
    valid_bounds (toORect (((0, 0), (1, 1)) : ZRect)) = true ∧
    valid_bounds (toORect (find_larger_bound (((0, 0), (1, 1)) : ZRect)
      (((0, 0), (2, 3)) : ZRect))) = true :=
  ⟨by decide, claim_C10.1 ((0, 0), (1, 1)) ((0, 0), (2, 3)) (by decide) (by decide)⟩

/-! ## Closed evaluations witnessing divergences between the code and the
specification -/

/-- Counterexample to C1 as stated: the requested count n = 3900 satisfies
1 ≤ n ≤ T = 4000, yet visualize raises ValueError before the sampling loop
— the derived cell height int(output_height / nframes) = int(3840/3900) is
0 and fails the positive-integer check — so the main pass seeks and
decodes no frames at all instead of 3900. -/
theorem claim_C1_counterexample :
    visualize bigVid 3900 none none "vertical" false = (.error .valueError, 0) := by
  with_unfolding_all rfl

/-- Claim C4 (code evaluated at the failing input): cropping the 4-by-4
frame to the rectangle ((1,1),(2,2)) yields a 1-by-1 sub-image holding
only the pixel at (1,1) — Python slices are upper-exclusive — not the
2-by-2 sub-image including row 2 and column 2 that the inclusive-bounds
reading (and visualize's own crop_width = x2 - x1 + 1 arithmetic)
predicts. -/
theorem claim_C4_eval :
    crop_image demo4 ((1, 1), (2, 2)) = [[[5]]] ∧
    iheight (crop_image demo4 ((1, 1), (2, 2))) ≠ 2 ∧
    iwidth (crop_image demo4 ((1, 1), (2, 2))) ≠ 2 := ⟨rfl, by decide, by decide⟩

/-- Claim C3 (code evaluated at the failing input): on a source whose
sampled frame at index 3 has invalid detected bounds, the detection
pre-pass seeks [1, 3, 3] — the continue statement skips the accumulator
advance — while the main pass of visualize seeks [1, 3, 5]. -/
theorem claim_C3_eval :
    (determine_video_bounds mixedVid 3 3).1 =
      .ok ([1, 3, 3], true, some ((0, 0), (1, 1))) ∧
    (visualize mixedVid 3 none none "vertical" false).1 =
      .ok ⟨[1, 3, 5], 2, 1280, 3/5⟩ ∧
    ([1, 3, 3] : List ℤ) ≠ [1, 3, 5] :=
  ⟨by with_unfolding_all rfl, by with_unfolding_all rfl, by decide⟩

/-- Claim C6 (code evaluated at the failing input): when every sampled
frame is solid black, so that no frame yields valid bounds,
determine_video_bounds raises TypeError (valid_bounds is handed None)
instead of returning an unsuccessful result. -/
theorem claim_C6_eval :
    determine_video_bounds blackVid 2 3 = (.error .typeError, 1) := rfl

/-- Counterexample to C7 as stated: the invalid-argument rejection of
visualize (nframes = -1) propagates with zero video.release() calls, so
the handle is not released on every exit path. -/
theorem claim_C7_counterexample :
    visualize demoVid (-1) none none "vertical" false = (.error .valueError, 0) := rfl

/-- Counterexample to C8 as stated: supplying the explicit per-frame
height 7 still resizes every sampled frame to height 384 =
int(output_height / nframes); the explicit value is ignored. -/
theorem claim_C8_counterexample :
    (visualize demoVid 10 (some 7) none "vertical" false).1 =
      .ok ⟨[5, 15, 25, 35, 45, 55, 65, 75, 85, 95], 2, 384, 10⟩ ∧
    (384 : ℤ) ≠ 7 := ⟨by with_unfolding_all rfl, by decide⟩

/-- Counterexample to C9 as stated: interval_from_nframes accepts the
negative sample count -5 and returns the interval -2 seconds instead of
rejecting it. -/
theorem claim_C9_counterexample :
    (interval_from_nframes demoVid (-5)).1 = .ok (-2) := by with_unfolding_all rfl

/-! ## Matte detection: characterizing the edge-finding loop -/

lemma fme_go_spec (t : ℕ) (l : List ℕ) :
    ∀ (i : ℕ) (ds de : Option ℕ),
      fme_go t l i (ds, de) =
        ((match ds with
          | some s => some s
          | none => (firstAbove t l).map (· + i)),
         (match lastAbove t l with
          | some k => some (k + i)
          | none => de)) := by
  induction l with
  | nil =>
    intro i ds de
    cases ds <;> simp [fme_go, firstAbove, lastAbove]
  | cons v rest ih =>
    intro i ds de
    by_cases hv : t < v
    · have hstep : fme_go t (v :: rest) i (ds, de) =
          fme_go t rest (i + 1) ((if ds.isNone then some i else ds), some i) := by
        simp [fme_go, hv]
      rw [hstep]
      cases ds <;> rw [ih] <;> cases hL : lastAbove t rest <;>
        simp [firstAbove, lastAbove, hv, hL] <;> omega
    · have hstep : fme_go t (v :: rest) i (ds, de) = fme_go t rest (i + 1) (ds, de) := by
        simp [fme_go, hv]
      rw [hstep, ih]
      cases ds <;> cases hL : lastAbove t rest <;> cases hF : firstAbove t rest <;>
        simp [firstAbove, lastAbove, hv, hL, hF] <;> omega

lemma find_matrix_edges_spec (matrix : List ℕ) (threshold : ℕ) :
    find_matrix_edges matrix threshold =
      (firstAbove threshold matrix, lastAbove threshold matrix) := by
  rw [find_matrix_edges, fme_go_spec]
  cases hF : firstAbove threshold matrix <;> cases hL : lastAbove threshold matrix <;> simp

lemma firstAbove_eq_none (t : ℕ) (l : List ℕ) (h : ∀ s ∈ l, s ≤ t) :
    firstAbove t l = none := by
  induction l with
  | nil => rfl
  | cons v rest ih =>
    have hv : ¬ t < v := by have := h v (by simp); omega
    have := ih (fun s hs => h s (by simp [hs]))
    simp [firstAbove, hv, this]

lemma lastAbove_eq_none (t : ℕ) (l : List ℕ) (h : ∀ s ∈ l, s ≤ t) :
    lastAbove t l = none := by
  induction l with
  | nil => rfl
  | cons v rest ih =>
    have hv : ¬ t < v := by have := h v (by simp); omega
    have := ih (fun s hs => h s (by simp [hs]))
    simp [lastAbove, hv, this]

/-- Claim C2: the matte detector reports, for each axis, the first and
last index of the per-row (per-column) all-channel sum profile that
strictly exceeds threshold times the perpendicular extent times the
channel depth, and both bounds of an axis are None exactly when no index
of that axis exceeds its threshold. -/
theorem claim_C2 (image : Img) (threshold : ℕ) :
    (determine_image_bounds image threshold).2 =
      (((firstAbove (threshold * iheight image * idepth image) (colSums image)).map Int.ofNat,
        (firstAbove (threshold * iwidth image * idepth image) (rowSums image)).map Int.ofNat),
       ((lastAbove (threshold * iheight image * idepth image) (colSums image)).map Int.ofNat,
        (lastAbove (threshold * iwidth image * idepth image) (rowSums image)).map Int.ofNat)) ∧
    ((∀ s ∈ colSums image, s ≤ threshold * iheight image * idepth image) →
      (determine_image_bounds image threshold).2.1.1 = none ∧
      (determine_image_bounds image threshold).2.2.1 = none) ∧
    ((∀ s ∈ rowSums image, s ≤ threshold * iwidth image * idepth image) →
      (determine_image_bounds image threshold).2.1.2 = none ∧
      (determine_image_bounds image threshold).2.2.2 = none) := by
  refine ⟨?_, ?_, ?_⟩
  · simp [determine_image_bounds, find_matrix_edges_spec]
  · intro h
    simp [determine_image_bounds, find_matrix_edges_spec,
      firstAbove_eq_none _ _ h, lastAbove_eq_none _ _ h]
  · intro h
    simp [determine_image_bounds, find_matrix_edges_spec,
      firstAbove_eq_none _ _ h, lastAbove_eq_none _ _ h]

/-- Witness for C2 at the all-black frame with threshold 3: both column
bounds come out None. -/
theorem claim_C2_witness :
    (∀ s ∈ colSums blackImg, s ≤ 3 * iheight blackImg * idepth blackImg) ∧
    (determine_image_bounds blackImg 3).2.1.1 = none ∧
    (determine_image_bounds blackImg 3).2.2.1 = none :=
  ⟨by decide, (claim_C2 blackImg 3).2.1 (by decide)⟩

/-! ## The sampling schedule of the main pass -/

lemma pyInt_lt (x y : ℚ) (hx : 0 ≤ x) (hxy : x + 1 ≤ y) : pyInt x < pyInt y := by
  have hy : (0 : ℚ) ≤ y := by linarith
  rw [pyInt, if_pos hx, pyInt, if_pos hy]
  have h2 : ⌊x⌋ + 1 ≤ ⌊y⌋ := by
    have h3 := Int.floor_mono hxy
    rw [Int.floor_add_one] at h3
    exact h3
  omega

lemma visLoop_ok (readAt : ℤ → Option Img) (hread : ∀ i, (readAt i).isSome = true) :
    ∀ (n : ℕ) (next interval : ℚ),
      visLoop readAt n next interval =
        .ok ((List.range n).map (fun i : ℕ => pyInt (next + (i : ℚ) * interval))) := by
  intro n
  induction n with
  | zero => intro next interval; simp [visLoop]
  | succ k ih =>
    intro next interval
    obtain ⟨img, himg⟩ := Option.isSome_iff_exists.mp (hread (pyInt next))
    simp only [visLoop, himg, ih]
    rw [List.range_succ_eq_map, List.map_cons, List.map_map]
    refine congrArg Except.ok ?_
    refine congrArg₂ List.cons ?_ ?_
    · norm_num
    · refine congrArg₂ List.map ?_ rfl
      funext i
      simp only [Function.comp_apply]
      congr 1
      push_cast
      ring

lemma sampleIndices_eq_range (total : ℚ) (n : ℤ) (h : 0 ≤ n) :
    sampleIndices total n.toNat =
      (List.range n.toNat).map
        (fun i : ℕ => pyInt (total / (n : ℚ) / 2 + (i : ℚ) * (total / (n : ℚ)))) := by
  unfold sampleIndices
  have hc : ((n.toNat : ℕ) : ℚ) = (n : ℚ) := by
    have h2 := Int.toNat_of_nonneg h
    exact_mod_cast congrArg (fun z : ℤ => (z : ℚ)) h2
  rw [hc]

lemma sampleIndices_pairwise (total : ℚ) (m : ℕ) (h1 : 1 ≤ (m : ℚ))
    (hT : (m : ℚ) ≤ total) : List.Pairwise (· < ·) (sampleIndices total m) := by
  have hm : (0 : ℚ) < (m : ℚ) := by linarith
  have hint : (1 : ℚ) ≤ total / (m : ℚ) := (one_le_div hm).mpr hT
  have hI0 : (0 : ℚ) < total / (m : ℚ) := lt_of_lt_of_le zero_lt_one hint
  unfold sampleIndices
  refine List.Pairwise.map _ ?_ (List.pairwise_lt_range m)
  intro i j hij
  have hi0 : (0 : ℚ) ≤ (i : ℚ) := Nat.cast_nonneg i
  have hji : (i : ℚ) + 1 ≤ (j : ℚ) := by exact_mod_cast hij
  have key : ((i : ℚ) + 1) * (total / (m : ℚ)) ≤ (j : ℚ) * (total / (m : ℚ)) :=
    mul_le_mul_of_nonneg_right hji (le_of_lt hI0)
  apply pyInt_lt
  · have : (0 : ℚ) ≤ (i : ℚ) * (total / (m : ℚ)) := mul_nonneg hi0 (le_of_lt hI0)
    nlinarith
  · nlinarith

/-- Claim C1 (amended): with a positive requested count no larger than the total
frame count (and small enough that the derived cell height stays
positive), a run of visualize seeks and decodes exactly n frames, the
seeked indices are the truncations of the unrounded accumulator
interval/2 + i*interval, they are strictly increasing, and for a
100-frame source with n = 10 they are [5, 15, ..., 95]. -/
theorem claim_C1 (v : Video) (n : ℤ) (img0 : Img)
    (hopen : v.opened = true) (hfps : v.fps ≠ 0)
    (h1 : 1 ≤ n) (hT : (n : ℚ) ≤ v.total) (h38 : n ≤ 3840)
    (hf0 : v.firstFrame = some img0)
    (hread : ∀ i, (v.readAt i).isSome = true) :
    (visualize v n none none "vertical" false).1 =
      .ok ⟨sampleIndices v.total n.toNat, (iwidth img0 : ℤ),
           pyInt ((3840 : ℚ) / (n : ℚ)), v.total / v.fps⟩ ∧
    (sampleIndices v.total n.toNat).length = n.toNat ∧
    List.Pairwise (· < ·) (sampleIndices v.total n.toNat) ∧
    sampleIndices 100 10 = [5, 15, 25, 35, 45, 55, 65, 75, 85, 95] := by
  have hn0 : ¬ (n = 0) := by omega
  have hop : ¬ (v.opened = false) := by simp [hopen]
  have hlt1 : ¬ (n < 1) := by omega
  have hTlt : ¬ (v.total < (n : ℚ)) := not_lt.mpr hT
  have hnq : (0 : ℚ) < (n : ℚ) := by exact_mod_cast (by omega : (0 : ℤ) < n)
  have h38q : (n : ℚ) ≤ 3840 := by exact_mod_cast h38
  have hdiv1 : (1 : ℚ) ≤ 3840 / (n : ℚ) := (one_le_div hnq).mpr h38q
  have hd0 : (0 : ℚ) ≤ 3840 / (n : ℚ) := by linarith
  have hge : 1 ≤ pyInt ((3840 : ℚ) / (n : ℚ)) := by
    rw [pyInt, if_pos hd0]
    exact Int.le_floor.mpr (by exact_mod_cast hdiv1)
  have hh : ¬ (pyInt ((3840 : ℚ) / (n : ℚ)) < 1) := by omega
  have hcast : ((n.toNat : ℕ) : ℚ) = (n : ℚ) := by
    have h2 := Int.toNat_of_nonneg (by omega : 0 ≤ n)
    exact_mod_cast congrArg (fun z : ℤ => (z : ℚ)) h2
  refine ⟨?_, ?_, ?_, by with_unfolding_all rfl⟩
  · rw [sampleIndices_eq_range v.total n (by omega)]
    have c7 : visualize_trim v false img0 = .ok (0, 0, 0) := rfl
    have c9 : visualize_width none "vertical" 0 0 img0 = .ok (iwidth img0 : ℤ) := rfl
    simp only [visualize, if_neg hn0, if_neg hop, if_neg hfps, if_neg hlt1,
      if_neg hTlt, hf0, if_neg hh, visLoop_ok v.readAt hread]
    simp [c7, c9]
  · simp only [sampleIndices, List.length_map, List.length_range]
  · exact sampleIndices_pairwise v.total n.toNat
      (by rw [hcast]; exact_mod_cast h1) (by rw [hcast]; exact hT)

/-- Witness for C1: the 100-frame, 10-sample schedule. -/
theorem claim_C1_witness :
    sampleIndices 100 10 = [5, 15, 25, 35, 45, 55, 65, 75, 85, 95] :=
  (claim_C1 demoVid 10 brightImg rfl (by norm_num [demoVid]) (by norm_num)
    (by norm_num [demoVid]) (by norm_num) rfl (fun _ => rfl)).2.2.2

/-! ## Release behavior and argument handling -/

lemma valid_bounds_py_error (b : Option ORect) (e : PyErr)
    (h : valid_bounds_py b = .error e) : e = .typeError := by
  cases b with
  | none => cases h; rfl
  | some r => simp [valid_bounds_py] at h

lemma dvb_loop_error (readAt : ℤ → Option Img) (t : ℕ) :
    ∀ (n : ℕ) (next interval : ℚ) (vb : Option ZRect) (seeks : List ℤ) (e : PyErr),
      dvb_loop readAt t n next interval vb seeks = .error e → e = .ioError := by
  intro n
  induction n with
  | zero =>
    intro next interval vb seeks e h
    simp [dvb_loop] at h
  | succ k ih =>
    intro next interval vb seeks e h
    simp only [dvb_loop] at h
    rcases hr : readAt (pyInt next) with _ | img
    · simp only [hr] at h
      injection h with h2
      exact h2.symm
    · simp only [hr] at h
      split at h
      · exact ih _ _ _ _ _ h
      · exact ih _ _ _ _ _ h

/-- Every run of visualize ends in one of exactly two shapes: a success
pair carrying one release and the derived cell height, or an error pair
carrying zero releases. -/
lemma visualize_shape (v : Video) (n : ℤ) (h w : Option ℤ) (dir : String) (t : Bool) :
    (∃ r, visualize v n h w dir t = (.ok r, 1) ∧
      r.cellH = pyInt ((3840 : ℚ) / (n : ℚ))) ∨
    (∃ e, visualize v n h w dir t = (.error e, 0)) := by
  by_cases c1 : n = 0
  · exact Or.inr ⟨.zeroDivisionError, by simp [visualize, c1]⟩
  by_cases c2 : v.opened = false
  · exact Or.inr ⟨.fileNotFoundError, by simp [visualize, c1, c2]⟩
  by_cases c3 : v.fps = 0
  · exact Or.inr ⟨.zeroDivisionError, by simp [visualize, c1, c2, c3]⟩
  by_cases c4 : n < 1
  · exact Or.inr ⟨.valueError, by simp [visualize, c1, c2, c3, c4]⟩
  by_cases c5 : v.total < (n : ℚ)
  · exact Or.inr ⟨.valueError, by simp [visualize, c1, c2, c3, c4, c5]⟩
  rcases c6 : v.firstFrame with _ | image
  · exact Or.inr ⟨.ioError, by simp [visualize, c1, c2, c3, c4, c5, c6]⟩
  rcases c7 : visualize_trim v t image with e | ⟨mt, cw, ch⟩
  · exact Or.inr ⟨e, by simp [visualize, c1, c2, c3, c4, c5, c6, c7]⟩
  by_cases c8 : pyInt ((3840 : ℚ) / (n : ℚ)) < 1
  · exact Or.inr ⟨.valueError, by simp [visualize, c1, c2, c3, c4, c5, c6, c7, c8]⟩
  rcases c9 : visualize_width w dir mt cw image with e | width
  · exact Or.inr ⟨e, by simp [visualize, c1, c2, c3, c4, c5, c6, c7, c8, c9]⟩
  by_cases c10 : dir = "horizontal" ∨ dir = "vertical"
  · rcases c11 : visLoop v.readAt n.toNat (v.total / (n : ℚ) / 2) (v.total / (n : ℚ))
      with e | seeks
    · exact Or.inr ⟨e,
        by simp [visualize, c1, c2, c3, c4, c5, c6, c7, c8, c9, c10, c11]⟩
    · exact Or.inl
        ⟨⟨seeks, width, pyInt ((3840 : ℚ) / (n : ℚ)), v.total / v.fps⟩,
         by simp [visualize, c1, c2, c3, c4, c5, c6, c7, c8, c9, c10, c11], rfl⟩
  · exact Or.inr ⟨.valueError,
      by simp [visualize, c1, c2, c3, c4, c5, c6, c7, c8, c9, c10]⟩

/-- Every run of determine_video_bounds ends as a success with one
release, the post-release TypeError with one release, or another error
with zero releases. -/
lemma dvb_shape (v : Video) (ns : ℤ) (t : ℕ) :
    (∃ out, determine_video_bounds v ns t = (.ok out, 1)) ∨
    determine_video_bounds v ns t = (.error .typeError, 1) ∨
    (∃ e, determine_video_bounds v ns t = (.error e, 0) ∧ e ≠ .typeError) := by
  by_cases c1 : v.opened = false
  · exact Or.inr (Or.inr ⟨.fileNotFoundError,
      by simp [determine_video_bounds, c1], by decide⟩)
  by_cases c2 : ns < 1
  · exact Or.inr (Or.inr ⟨.valueError,
      by simp [determine_video_bounds, c1, c2], by decide⟩)
  rcases c3 : v.firstFrame with _ | image
  · exact Or.inr (Or.inr ⟨.ioError,
      by simp [determine_video_bounds, c1, c2, c3], by decide⟩)
  rcases c4 : dvb_loop v.readAt t ns.toNat (v.total / (ns : ℚ) / 2)
      (v.total / (ns : ℚ)) none [] with e | ⟨seeks, vb⟩
  · have he : e = .ioError := dvb_loop_error _ _ _ _ _ _ _ _ c4
    subst he
    exact Or.inr (Or.inr ⟨.ioError,
      by simp [determine_video_bounds, c1, c2, c3, c4], by decide⟩)
  rcases vb with _ | r
  · exact Or.inr (Or.inl
      (by simp [determine_video_bounds, c1, c2, c3, c4, valid_bounds_py]))
  · exact Or.inl ⟨(seeks, valid_bounds (toORect r), some r),
      by simp [determine_video_bounds, c1, c2, c3, c4, valid_bounds_py]⟩

/-- Claim C7 (amended): the main-pass handle of visualize is released
exactly once when the run succeeds and not at all when any error
propagates; determine_video_bounds likewise releases once on success and
not at all on its argument/read/decode failures, the sole exception being
the TypeError raised by the final valid_bounds call, which fires after the
release. -/
theorem claim_C7_amended :
    (∀ (v : Video) (n : ℤ) (h w : Option ℤ) (dir : String) (t : Bool),
      (visualize v n h w dir t).2 =
        match (visualize v n h w dir t).1 with
        | .ok _ => 1
        | .error _ => 0) ∧
    (∀ (v : Video) (ns : ℤ) (t : ℕ),
      (determine_video_bounds v ns t).2 =
        match (determine_video_bounds v ns t).1 with
        | .ok _ => 1
        | .error e => if e = .typeError then 1 else 0) := by
  constructor
  · intro v n h w dir t
    rcases visualize_shape v n h w dir t with ⟨r, hv, _⟩ | ⟨e, hv⟩ <;>
      rw [hv]
  · intro v ns t
    rcases dvb_shape v ns t with ⟨out, hv⟩ | hv | ⟨e, hv, hne⟩
    · rw [hv]
    · rw [hv]
      simp
    · rw [hv]
      simp [hne]

/-- Claim C8 (amended): visualize ignores the supplied per-frame height
entirely — its result does not depend on the height argument — and every
successful run resizes each sampled frame to
cellH = int(output_height / nframes). -/
theorem claim_C8_amended :
    (∀ (v : Video) (n : ℤ) (h1 h2 w : Option ℤ) (dir : String) (t : Bool),
      visualize v n h1 w dir t = visualize v n h2 w dir t) ∧
    (∀ (v : Video) (n : ℤ) (h w : Option ℤ) (dir : String) (t : Bool) (r : VisResult),
      (visualize v n h w dir t).1 = .ok r → r.cellH = pyInt ((3840 : ℚ) / (n : ℚ))) := by
  constructor
  · intro v n h1 h2 w dir t
    rfl
  · intro v n h w dir t r hr
    rcases visualize_shape v n h w dir t with ⟨r0, h0, hc⟩ | ⟨e, he⟩
    · rw [h0] at hr
      simp only [] at hr
      injection hr with h2
      rw [← h2]
      exact hc
    · rw [he] at hr
      simp at hr

/-- Witness for C8: the run with explicit height 7 produces cells of
height 384 = int(3840 / 10). -/
theorem claim_C8_witness :
    ({ seeks := [5, 15, 25, 35, 45, 55, 65, 75, 85, 95], cellW := 2, cellH := 384,
       duration := 10 } : VisResult).cellH = pyInt ((3840 : ℚ) / ((10 : ℤ) : ℚ)) :=
  claim_C8_amended.2 demoVid 10 (some 7) none "vertical" false _
    (by with_unfolding_all rfl)

/-- Claim C9 (amended): the interval-math functions perform no validation
of their count/interval arguments: for any opened source and any nonzero
requested count, interval_from_nframes returns (total/nframes)/fps
(negative counts included), and for any nonzero interval,
nframes_from_interval returns round((total/fps)/interval).  The
positive-integer and at-most-total checks live in visualize instead. -/
theorem claim_C9_amended :
    (∀ (v : Video) (n : ℤ), v.opened = true → n ≠ 0 → v.fps ≠ 0 →
      (interval_from_nframes v n).1 = .ok (v.total / (n : ℚ) / v.fps)) ∧
    (∀ (v : Video) (i : ℚ), v.opened = true → v.fps ≠ 0 → i ≠ 0 →
      (nframes_from_interval v i).1 = .ok (pyRound (v.total / v.fps / i))) := by
  constructor
  · intro v n h1 h2 h3
    simp [interval_from_nframes, h1, h2, h3]
  · intro v i h1 h2 h3
    simp [nframes_from_interval, h1, h2, h3]

/-- Witness for C9 at a concrete opened source and count. -/
theorem claim_C9_witness :
    (interval_from_nframes demoVid 20).1 =
      .ok (demoVid.total / ((20 : ℤ) : ℚ) / demoVid.fps) :=
  claim_C9_amended.1 demoVid 20 rfl (by decide) (by norm_num [demoVid])

end FrameVis
